import Mathlib

/-!
Verification of the cooling/turbulence problem-generator module
(`src/pgen/cool_turb.cpp`): the piecewise cooling curve `TempToLambda`,
the per-cell cooling source term `CoolingSource`, the uniform initial
state `ProblemGenerator`, and the setup routine `InitUserMeshData`,
shallowly embedded over the real numbers.
-/

namespace CoolTurb

/-- The piecewise cooling curve, embedded from `TempToLambda` in
`cool_turb.cpp`: an if/else-if chain on `log10T` with five segments. -/
noncomputable def TempToLambda (log10T : ℝ) : ℝ :=
  if log10T < 4.0 then
    -24.0
  else if log10T ≥ 4.0 ∧ log10T < 5.0 then
    -24.0 + (-20.5 + 24.0) * (log10T - 4.0)
  else if log10T ≥ 5.0 ∧ log10T < 7.5 then
    -20.5 + (-22.5 + 20.5) * (log10T - 5.0) / (7.5 - 5.0)
  else if log10T ≥ 7.5 ∧ log10T < 9.0 then
    -22.5 + (-22.0 + 22.5) * (log10T - 7.5) / (9.0 - 7.5)
  else
    -22.0 + (log10T - 9.0) / 3.0

/-- Written from the spec table in section 4.1: five contiguous
left-closed/right-open segments, the last unbounded above. Kept separate
from `TempToLambda` so the code/spec agreement is a theorem. -/
noncomputable def specCoolingCurve (x : ℝ) : ℝ :=
  if x < 4.0 then -24.0
  else if x < 5.0 then -24.0 + 3.5 * (x - 4.0)
  else if x < 7.5 then -20.5 - (2.0 / 2.5) * (x - 5.0)
  else if x < 9.0 then -22.5 + (0.5 / 1.5) * (x - 7.5)
  else -22.0 + (x - 9.0) / 3.0

theorem tempToLambda_seg1 {x : ℝ} (h : x < 4.0) : TempToLambda x = -24.0 := by
  unfold TempToLambda
  rw [if_pos h]

theorem tempToLambda_seg2 {x : ℝ} (h1 : 4.0 ≤ x) (h2 : x < 5.0) :
    TempToLambda x = -24.0 + (-20.5 + 24.0) * (x - 4.0) := by
  unfold TempToLambda
  rw [if_neg (not_lt.mpr h1), if_pos ⟨h1, h2⟩]

theorem tempToLambda_seg3 {x : ℝ} (h1 : 5.0 ≤ x) (h2 : x < 7.5) :
    TempToLambda x = -20.5 + (-22.5 + 20.5) * (x - 5.0) / (7.5 - 5.0) := by
  unfold TempToLambda
  rw [if_neg (not_lt.mpr (by linarith)), if_neg (by push_neg; intro h; linarith),
    if_pos ⟨h1, h2⟩]

theorem tempToLambda_seg4 {x : ℝ} (h1 : 7.5 ≤ x) (h2 : x < 9.0) :
    TempToLambda x = -22.5 + (-22.0 + 22.5) * (x - 7.5) / (9.0 - 7.5) := by
  unfold TempToLambda
  rw [if_neg (not_lt.mpr (by linarith)), if_neg (by push_neg; intro h; linarith),
    if_neg (by push_neg; intro h; linarith), if_pos ⟨h1, h2⟩]

theorem tempToLambda_seg5 {x : ℝ} (h1 : 9.0 ≤ x) :
    TempToLambda x = -22.0 + (x - 9.0) / 3.0 := by
  unfold TempToLambda
  rw [if_neg (not_lt.mpr (by linarith)), if_neg (by push_neg; intro h; linarith),
    if_neg (by push_neg; intro h; linarith), if_neg (by push_neg; intro h; linarith)]

/-- C2: for every real input, `TempToLambda` agrees with the five-segment
piecewise-linear table of spec section 4.1, each segment left-closed and
right-open, the last unbounded above. -/
theorem tempToLambda_eq_specCurve (x : ℝ) : TempToLambda x = specCoolingCurve x := by
  unfold specCoolingCurve
  rcases lt_or_le x 4.0 with h4 | h4
  · rw [tempToLambda_seg1 h4, if_pos h4]
  · rcases lt_or_le x 5.0 with h5 | h5
    · rw [tempToLambda_seg2 h4 h5, if_neg (not_lt.mpr h4), if_pos h5]
      norm_num
    · rcases lt_or_le x 7.5 with h75 | h75
      · rw [tempToLambda_seg3 h5 h75, if_neg (not_lt.mpr (by linarith)),
          if_neg (not_lt.mpr h5), if_pos h75]
        ring_nf
      · rcases lt_or_le x 9.0 with h9 | h9
        · rw [tempToLambda_seg4 h75 h9, if_neg (not_lt.mpr (by linarith)),
            if_neg (not_lt.mpr (by linarith)), if_neg (not_lt.mpr h75), if_pos h9]
          ring_nf
        · rw [tempToLambda_seg5 h9, if_neg (not_lt.mpr (by linarith)),
            if_neg (not_lt.mpr (by linarith)), if_neg (not_lt.mpr (by linarith)),
            if_neg (not_lt.mpr h9)]

theorem ttl_at_four : TempToLambda 4.0 = -24.0 := by
  rw [tempToLambda_seg2 le_rfl (by norm_num)]; norm_num

theorem ttl_at_five : TempToLambda 5.0 = -20.5 := by
  rw [tempToLambda_seg3 le_rfl (by norm_num)]; norm_num

theorem ttl_at_sevenHalf : TempToLambda 7.5 = -22.5 := by
  rw [tempToLambda_seg4 le_rfl (by norm_num)]; norm_num

theorem ttl_at_nine : TempToLambda 9.0 = -22.0 := by
  rw [tempToLambda_seg5 le_rfl]; norm_num

/-- C4: the curve is continuous at every breakpoint: its values at 4.0, 5.0,
7.5 and 9.0 are −24.0, −20.5, −22.5 and −22.0, and at 5.0, 7.5 and 9.0 the
formula of the segment to the left also evaluates to the curve's value there. -/
theorem tempToLambda_continuity :
    TempToLambda 4.0 = -24.0 ∧ TempToLambda 5.0 = -20.5 ∧
    TempToLambda 7.5 = -22.5 ∧ TempToLambda 9.0 = -22.0 ∧
    -24.0 + (-20.5 + 24.0) * ((5.0 : ℝ) - 4.0) = TempToLambda 5.0 ∧
    -20.5 + (-22.5 + 20.5) * ((7.5 : ℝ) - 5.0) / (7.5 - 5.0) = TempToLambda 7.5 ∧
    -22.5 + (-22.0 + 22.5) * ((9.0 : ℝ) - 7.5) / (9.0 - 7.5) = TempToLambda 9.0 := by
  refine ⟨ttl_at_four, ttl_at_five, ttl_at_sevenHalf, ttl_at_nine, ?_, ?_, ?_⟩
  · rw [ttl_at_five]; norm_num
  · rw [ttl_at_sevenHalf]; norm_num
  · rw [ttl_at_nine]; norm_num

/-- C5 counterexample: the curve is not non-decreasing on [4.0, 9.0): at the
in-range pair x = 5.0, y = 6.0 the curve strictly decreases
(TempToLambda 5.0 = −20.5 but TempToLambda 6.0 = −21.3). -/
theorem tempToLambda_not_monotone :
    (4.0 : ℝ) ≤ 5.0 ∧ (5.0 : ℝ) ≤ 6.0 ∧ (6.0 : ℝ) < 9.0 ∧
    TempToLambda 6.0 < TempToLambda 5.0 := by
  refine ⟨by norm_num, by norm_num, by norm_num, ?_⟩
  rw [ttl_at_five, tempToLambda_seg3 (by norm_num) (by norm_num)]
  norm_num

/-- C5 amended: the curve is non-decreasing on [4.0, 5.0], non-increasing on
[5.0, 7.5], and non-decreasing on [7.5, ∞); from 9.0 on it is exactly the
line −22.0 + (log10T − 9.0)/3, i.e. it increases with slope 1/3 per decade. -/
theorem tempToLambda_piecewise_monotone :
    (∀ x y : ℝ, 4.0 ≤ x → x ≤ y → y ≤ 5.0 → TempToLambda x ≤ TempToLambda y) ∧
    (∀ x y : ℝ, 5.0 ≤ x → x ≤ y → y ≤ 7.5 → TempToLambda y ≤ TempToLambda x) ∧
    (∀ x y : ℝ, 7.5 ≤ x → x ≤ y → TempToLambda x ≤ TempToLambda y) ∧
    (∀ x : ℝ, 9.0 ≤ x → TempToLambda x = -22.0 + (x - 9.0) / 3.0) := by
  refine ⟨?_, ?_, ?_, fun x hx => tempToLambda_seg5 hx⟩
  · intro x y hx hxy hy
    rcases eq_or_lt_of_le hy with rfl | hy5
    · rcases eq_or_lt_of_le hxy with rfl | hx5
      · exact le_rfl
      · rw [ttl_at_five, tempToLambda_seg2 hx hx5]; nlinarith
    · rw [tempToLambda_seg2 hx (lt_of_le_of_lt hxy hy5),
        tempToLambda_seg2 (le_trans hx hxy) hy5]
      nlinarith
  · intro x y hx hxy hy
    rcases eq_or_lt_of_le hy with rfl | hy75
    · rcases eq_or_lt_of_le hxy with rfl | hx75
      · exact le_rfl
      · rw [ttl_at_sevenHalf, tempToLambda_seg3 hx hx75]; ring_nf; linarith
    · rw [tempToLambda_seg3 hx (lt_of_le_of_lt hxy hy75),
        tempToLambda_seg3 (le_trans hx hxy) hy75]
      ring_nf
      linarith
  · intro x y hx hxy
    rcases lt_or_le x 9.0 with hx9 | hx9
    · rcases lt_or_le y 9.0 with hy9 | hy9
      · rw [tempToLambda_seg4 hx hx9, tempToLambda_seg4 (le_trans hx hxy) hy9]
        ring_nf
        linarith
      · rw [tempToLambda_seg4 hx hx9, tempToLambda_seg5 hy9]
        ring_nf
        linarith
    · rw [tempToLambda_seg5 hx9, tempToLambda_seg5 (le_trans hx9 hxy)]
      nlinarith

/-- Witness for the amended C5 theorem, at concrete points of each segment. -/
theorem tempToLambda_piecewise_monotone_witness :
    TempToLambda 4.25 ≤ TempToLambda 4.75 ∧
    TempToLambda 7.0 ≤ TempToLambda 6.0 ∧
    TempToLambda 8.0 ≤ TempToLambda 10.0 ∧
    TempToLambda 12.0 = -22.0 + ((12.0 : ℝ) - 9.0) / 3.0 :=
  ⟨tempToLambda_piecewise_monotone.1 4.25 4.75 (by norm_num) (by norm_num) (by norm_num),
   tempToLambda_piecewise_monotone.2.1 6.0 7.0 (by norm_num) (by norm_num) (by norm_num),
   tempToLambda_piecewise_monotone.2.2.1 8.0 10.0 (by norm_num) (by norm_num),
   tempToLambda_piecewise_monotone.2.2.2 12.0 (by norm_num)⟩

/-! Physical constants, duplicated as locals in `CoolingSource` and
`MeshBlock::ProblemGenerator` with these exact values. -/

/-- Mean molecular weight, `Real mu = 0.62` in the source. -/
noncomputable def mu : ℝ := 0.62

/-- Boltzmann constant in cgs units, `Real kB = 1.3807e-16`. -/
noncomputable def kB : ℝ := 1.3807e-16

/-- Atomic mass unit in cgs units, `Real amu = 1.660539e-24`. -/
noncomputable def amu : ℝ := 1.660539e-24

/-- Cooling floor, `Real temp_goal = 0.1` in `CoolingSource`. -/
noncomputable def temp_goal : ℝ := 0.1

/-- Relaxation time of the disabled cooling strategy, `Real tau = 0.01`;
read by `CoolingSource` but used only in commented-out code. -/
noncomputable def tau : ℝ := 0.01

/-- A cell index (k, j, i), as used by the `cons(IEN,k,j,i)` accesses. -/
abbrev Cell := ℤ × ℤ × ℤ

/-- The primitive variables of one cell: `prim(IDN,·)`, `prim(IPR,·)` and the
three velocity components (the latter never read by this module). -/
structure PrimCell where
  rho : ℝ
  press : ℝ
  v1 : ℝ
  v2 : ℝ
  v3 : ℝ

/-- The conserved variables of one cell: `u(IDN,·)`, `u(IM1..IM3,·)`,
`u(IEN,·)`. -/
structure ConsCell where
  dens : ℝ
  m1 : ℝ
  m2 : ℝ
  m3 : ℝ
  en : ℝ

/-- Index bounds of one mesh block (`is..ie`, `js..je`, `ks..ke`) together
with the adiabatic index returned by `pmb->peos->GetGamma()`. -/
structure MeshBlockIdx where
  is : ℤ
  ie : ℤ
  js : ℤ
  je : ℤ
  ks : ℤ
  ke : ℤ
  gamma : ℝ

/-- The integers of the inclusive loop range `for (x = a; x <= b; ++x)`. -/
def irange (a b : ℤ) : List ℤ :=
  (List.range (b + 1 - a).toNat).map (fun (n : ℕ) => a + (n : ℤ))

theorem mem_irange {a b x : ℤ} : x ∈ irange a b ↔ a ≤ x ∧ x ≤ b := by
  unfold irange
  simp only [List.mem_map, List.mem_range]
  constructor
  · rintro ⟨m, hm, rfl⟩
    omega
  · rintro ⟨h1, h2⟩
    exact ⟨(x - a).toNat, by omega, by omega⟩

theorem irange_nodup (a b : ℤ) : (irange a b).Nodup :=
  (List.nodup_range _).map fun _ _ h => by omega

/-- The cells visited by the triple loop over k, j, i of one block. -/
def blockCells (pmb : MeshBlockIdx) : List Cell :=
  irange pmb.ks pmb.ke ×ˢ (irange pmb.js pmb.je ×ˢ irange pmb.is pmb.ie)

/-- Membership of cell (k, j, i) in the block's owned index range. -/
def inRange (pmb : MeshBlockIdx) (c : Cell) : Prop :=
  pmb.ks ≤ c.1 ∧ c.1 ≤ pmb.ke ∧ pmb.js ≤ c.2.1 ∧ c.2.1 ≤ pmb.je ∧
    pmb.is ≤ c.2.2 ∧ c.2.2 ≤ pmb.ie

instance (pmb : MeshBlockIdx) (c : Cell) : Decidable (inRange pmb c) := by
  unfold inRange
  infer_instance

theorem mem_blockCells {pmb : MeshBlockIdx} {c : Cell} :
    c ∈ blockCells pmb ↔ inRange pmb c := by
  obtain ⟨k, j, i⟩ := c
  simp only [blockCells, List.mem_product, mem_irange, inRange]
  tauto

theorem blockCells_nodup (pmb : MeshBlockIdx) : (blockCells pmb).Nodup :=
  (irange_nodup _ _).product ((irange_nodup _ _).product (irange_nodup _ _))

/-- A loop that visits each index of `l` once, replacing the value at the
visited index by a function of the old value there, computes the pointwise
map on members of `l` and keeps everything else unchanged. -/
theorem foldl_update_eq {α β : Type} [DecidableEq α] (g : α → β → β) :
    ∀ (l : List α), l.Nodup → ∀ (a : α → β) (c : α),
      l.foldl (fun acc x => Function.update acc x (g x (acc x))) a c
        = if c ∈ l then g c (a c) else a c := by
  intro l
  induction l with
  | nil => intro _ a c; simp
  | cons x xs ih =>
    intro hl a c
    rw [List.foldl_cons, ih (List.Nodup.of_cons hl)]
    by_cases hc : c ∈ xs
    · have hcx : c ≠ x := fun h => (List.nodup_cons.mp hl).1 (h ▸ hc)
      rw [if_pos hc, if_pos (List.mem_cons.mpr (Or.inr hc)),
        Function.update_noteq hcx]
    · rw [if_neg hc]
      by_cases hcx : c = x
      · subst hcx
        rw [Function.update_same, if_pos (List.mem_cons_self c xs)]
      · rw [Function.update_noteq hcx,
        if_neg (fun h => (List.mem_cons.mp h).elim hcx hc)]

/-- Temperature of a cell, `prim(IPR,·)/prim(IDN,·) * mu * amu / kB`. -/
noncomputable def cellTemp (pr : PrimCell) : ℝ :=
  pr.press / pr.rho * mu * amu / kB

/-- The body of the innermost loop of `CoolingSource` acting on one cell. -/
noncomputable def coolCell (dt : ℝ) (pr : PrimCell) (cc : ConsCell) : ConsCell :=
  let temp := cellTemp pr
  let log10T := Real.logb 10 temp
  let log10Lambda := TempToLambda log10T
  let Lambda := (10.0 : ℝ) ^ log10Lambda
  if temp > temp_goal then
    { cc with en := cc.en - dt * pr.rho * pr.rho / amu / amu * Lambda }
  else
    cc

/-- `CoolingSource` from `cool_turb.cpp`: the triple loop over the block's
owned cells, updating the conserved energy in place. The unused arguments
`time`, `prim_scalar` and `bcc` and the untouched mutable `cons_scalar`
are kept to mirror the enrolled callback signature. -/
noncomputable def CoolingSource (pmb : MeshBlockIdx) (time dt : ℝ)
    (prim : Cell → PrimCell) (prim_scalar : Cell → ℕ → ℝ)
    (bcc : Cell → ℝ × ℝ × ℝ) (cons : Cell → ConsCell)
    (cons_scalar : Cell → ℕ → ℝ) :
    (Cell → ConsCell) × (Cell → ℕ → ℝ) :=
  let g := pmb.gamma
  ((blockCells pmb).foldl
      (fun acc c => Function.update acc c (coolCell dt (prim c) (acc c))) cons,
    cons_scalar)

/-- Pointwise description of one `CoolingSource` invocation: each owned cell
is updated by `coolCell` from its own previous state, every other cell is
untouched. -/
theorem coolingSource_apply (pmb : MeshBlockIdx) (time dt : ℝ)
    (prim : Cell → PrimCell) (prim_scalar : Cell → ℕ → ℝ)
    (bcc : Cell → ℝ × ℝ × ℝ) (cons : Cell → ConsCell)
    (cons_scalar : Cell → ℕ → ℝ) (c : Cell) :
    (CoolingSource pmb time dt prim prim_scalar bcc cons cons_scalar).1 c
      = if inRange pmb c then coolCell dt (prim c) (cons c) else cons c := by
  unfold CoolingSource
  dsimp only
  rw [foldl_update_eq (fun x cc => coolCell dt (prim x) cc) _ (blockCells_nodup pmb)]
  by_cases h : inRange pmb c
  · rw [if_pos (mem_blockCells.mpr h), if_pos h]
  · rw [if_neg (fun hm => h (mem_blockCells.mp hm)), if_neg h]

theorem coolCell_dens (dt : ℝ) (pr : PrimCell) (cc : ConsCell) :
    (coolCell dt pr cc).dens = cc.dens := by
  unfold coolCell
  dsimp only
  split_ifs <;> rfl

theorem coolCell_m1 (dt : ℝ) (pr : PrimCell) (cc : ConsCell) :
    (coolCell dt pr cc).m1 = cc.m1 := by
  unfold coolCell
  dsimp only
  split_ifs <;> rfl

theorem coolCell_m2 (dt : ℝ) (pr : PrimCell) (cc : ConsCell) :
    (coolCell dt pr cc).m2 = cc.m2 := by
  unfold coolCell
  dsimp only
  split_ifs <;> rfl

theorem coolCell_m3 (dt : ℝ) (pr : PrimCell) (cc : ConsCell) :
    (coolCell dt pr cc).m3 = cc.m3 := by
  unfold coolCell
  dsimp only
  split_ifs <;> rfl

/-- Concrete fixtures for the witness theorems: a one-cell block and
constant primitive/conserved fields. -/
noncomputable def pmb0 : MeshBlockIdx := ⟨0, 0, 0, 0, 0, 0, 5.0 / 3.0⟩

noncomputable def primHot : Cell → PrimCell := fun _ => ⟨1.0, 1.0e8, 0.0, 0.0, 0.0⟩

noncomputable def primHot2 : Cell → PrimCell := fun c => ⟨1.0, 1.0e8, (c.1 : ℝ), 3.0, 4.0⟩

noncomputable def primCold : Cell → PrimCell := fun _ => ⟨1.0, 1.0, 0.0, 0.0, 0.0⟩

noncomputable def cons0 : Cell → ConsCell := fun _ => ⟨1.0, 0.0, 0.0, 0.0, 5.0⟩

noncomputable def cons1 : Cell → ConsCell := fun _ => ⟨2.0, 3.0, 4.0, 5.0, 5.0⟩

noncomputable def zeroScalar : Cell → ℕ → ℝ := fun _ _ => 0.0

noncomputable def oneScalar : Cell → ℕ → ℝ := fun _ _ => 1.0

noncomputable def zeroB : Cell → ℝ × ℝ × ℝ := fun _ => (0.0, 0.0, 0.0)

noncomputable def oneB : Cell → ℝ × ℝ × ℝ := fun _ => (1.0, 2.0, 3.0)

/-- C1: for every owned cell whose temperature T = p/ρ·μ·amu/k_B exceeds
temp_goal = 0.1, one CoolingSource invocation sets the cell's conserved
energy to exactly its old value minus dt·ρ²/amu²·Λ(T) with
Λ(T) = 10^TempToLambda(log10 T); for dt > 0 the new energy is strictly
below the old one. -/
theorem coolingSource_strict_decrease (pmb : MeshBlockIdx) (time dt : ℝ)
    (prim : Cell → PrimCell) (prim_scalar : Cell → ℕ → ℝ)
    (bcc : Cell → ℝ × ℝ × ℝ) (cons : Cell → ConsCell)
    (cons_scalar : Cell → ℕ → ℝ) (c : Cell)
    (hc : inRange pmb c) (hT : 0.1 < cellTemp (prim c)) :
    ((CoolingSource pmb time dt prim prim_scalar bcc cons cons_scalar).1 c).en
        = (cons c).en - dt * (prim c).rho * (prim c).rho / amu / amu *
            (10.0 : ℝ) ^ TempToLambda (Real.logb 10 (cellTemp (prim c))) ∧
      (0 < dt →
        ((CoolingSource pmb time dt prim prim_scalar bcc cons cons_scalar).1 c).en
          < (cons c).en) := by
  rw [coolingSource_apply, if_pos hc]
  unfold coolCell
  dsimp only
  rw [if_pos (show cellTemp (prim c) > temp_goal from hT)]
  refine ⟨rfl, fun hdt => ?_⟩
  have hrho : (prim c).rho ≠ 0 := by
    intro h0
    unfold cellTemp at hT
    rw [h0, div_zero, zero_mul, zero_mul, zero_div] at hT
    norm_num at hT
  have hamu : (0 : ℝ) < amu := by unfold amu; norm_num
  have hLam : (0 : ℝ) <
      (10.0 : ℝ) ^ TempToLambda (Real.logb 10 (cellTemp (prim c))) :=
    Real.rpow_pos_of_pos (by norm_num) _
  have hsq : (0 : ℝ) < dt * (prim c).rho * (prim c).rho := by
    have := mul_self_pos.mpr hrho
    nlinarith
  have hpos : (0 : ℝ) < dt * (prim c).rho * (prim c).rho / amu / amu *
      (10.0 : ℝ) ^ TempToLambda (Real.logb 10 (cellTemp (prim c))) :=
    mul_pos (div_pos (div_pos hsq hamu) hamu) hLam
  show (cons c).en - _ < (cons c).en
  linarith

/-- Witness for C1 at a one-cell block with ρ = 1, p = 10⁸, dt = 1. -/
theorem coolingSource_strict_decrease_witness :
    (0.1 : ℝ) < cellTemp (primHot (0, 0, 0)) ∧
      ((CoolingSource pmb0 0.0 1.0 primHot zeroScalar zeroB cons0 zeroScalar).1
          (0, 0, 0)).en
        = (cons0 (0, 0, 0)).en -
            1.0 * (primHot (0, 0, 0)).rho * (primHot (0, 0, 0)).rho / amu / amu *
              (10.0 : ℝ) ^ TempToLambda (Real.logb 10 (cellTemp (primHot (0, 0, 0)))) ∧
      ((CoolingSource pmb0 0.0 1.0 primHot zeroScalar zeroB cons0 zeroScalar).1
          (0, 0, 0)).en < (cons0 (0, 0, 0)).en := by
  have hT : (0.1 : ℝ) < cellTemp (primHot (0, 0, 0)) := by
    unfold cellTemp primHot mu amu kB
    norm_num
  have h := coolingSource_strict_decrease pmb0 0.0 1.0 primHot zeroScalar zeroB
    cons0 zeroScalar (0, 0, 0) (by simp [inRange, pmb0]) hT
  exact ⟨hT, h.1, h.2 (by norm_num)⟩

/-- C3: a cell whose temperature does not exceed temp_goal = 0.1 keeps its
conserved energy unchanged by a CoolingSource invocation. -/
theorem coolingSource_noop_below_floor (pmb : MeshBlockIdx) (time dt : ℝ)
    (prim : Cell → PrimCell) (prim_scalar : Cell → ℕ → ℝ)
    (bcc : Cell → ℝ × ℝ × ℝ) (cons : Cell → ConsCell)
    (cons_scalar : Cell → ℕ → ℝ) (c : Cell)
    (hT : cellTemp (prim c) ≤ 0.1) :
    ((CoolingSource pmb time dt prim prim_scalar bcc cons cons_scalar).1 c).en
      = (cons c).en := by
  rw [coolingSource_apply]
  by_cases hc : inRange pmb c
  · rw [if_pos hc]
    unfold coolCell
    dsimp only
    rw [if_neg (not_lt.mpr (show cellTemp (prim c) ≤ temp_goal from hT))]
  · rw [if_neg hc]

/-- Witness for C3 at a one-cell block with ρ = 1, p = 1 (T ≈ 7.5·10⁻⁹). -/
theorem coolingSource_noop_below_floor_witness :
    cellTemp (primCold (0, 0, 0)) ≤ 0.1 ∧
      ((CoolingSource pmb0 0.0 1.0 primCold zeroScalar zeroB cons0 zeroScalar).1
          (0, 0, 0)).en = (cons0 (0, 0, 0)).en := by
  have hT : cellTemp (primCold (0, 0, 0)) ≤ (0.1 : ℝ) := by
    unfold cellTemp primCold mu amu kB
    norm_num
  exact ⟨hT, coolingSource_noop_below_floor pmb0 0.0 1.0 primCold zeroScalar
    zeroB cons0 zeroScalar (0, 0, 0) hT⟩

/-- C6: one CoolingSource invocation leaves every cell's conserved density
and momenta and the whole conserved-scalars array unchanged, and each cell's
final value is a function of that cell's own previous state only: owned
cells are updated by coolCell from their own data, all others untouched. -/
theorem coolingSource_frame (pmb : MeshBlockIdx) (time dt : ℝ)
    (prim : Cell → PrimCell) (prim_scalar : Cell → ℕ → ℝ)
    (bcc : Cell → ℝ × ℝ × ℝ) (cons : Cell → ConsCell)
    (cons_scalar : Cell → ℕ → ℝ) (c : Cell) :
    ((CoolingSource pmb time dt prim prim_scalar bcc cons cons_scalar).1 c).dens
        = (cons c).dens ∧
      ((CoolingSource pmb time dt prim prim_scalar bcc cons cons_scalar).1 c).m1
        = (cons c).m1 ∧
      ((CoolingSource pmb time dt prim prim_scalar bcc cons cons_scalar).1 c).m2
        = (cons c).m2 ∧
      ((CoolingSource pmb time dt prim prim_scalar bcc cons cons_scalar).1 c).m3
        = (cons c).m3 ∧
      (CoolingSource pmb time dt prim prim_scalar bcc cons cons_scalar).2
        = cons_scalar ∧
      (CoolingSource pmb time dt prim prim_scalar bcc cons cons_scalar).1 c
        = (if inRange pmb c then coolCell dt (prim c) (cons c) else cons c) := by
  have h := coolingSource_apply pmb time dt prim prim_scalar bcc cons cons_scalar c
  refine ⟨?_, ?_, ?_, ?_, rfl, h⟩ <;> rw [h] <;> split_ifs
  · exact coolCell_dens dt (prim c) (cons c)
  · rfl
  · exact coolCell_m1 dt (prim c) (cons c)
  · rfl
  · exact coolCell_m2 dt (prim c) (cons c)
  · rfl
  · exact coolCell_m3 dt (prim c) (cons c)
  · rfl

/-- C10: the post-update energy of a cell depends only on that cell's own
density, pressure and previous energy and on dt; the time argument, the
velocities, the magnetic field, the scalar arrays and all other cells'
state are irrelevant. -/
theorem coolingSource_local_deterministic (pmb : MeshBlockIdx)
    (time₁ time₂ dt : ℝ) (prim₁ prim₂ : Cell → PrimCell)
    (ps₁ ps₂ : Cell → ℕ → ℝ) (bcc₁ bcc₂ : Cell → ℝ × ℝ × ℝ)
    (cons₁ cons₂ : Cell → ConsCell) (cs₁ cs₂ : Cell → ℕ → ℝ) (c : Cell)
    (hrho : (prim₁ c).rho = (prim₂ c).rho)
    (hpress : (prim₁ c).press = (prim₂ c).press)
    (hen : (cons₁ c).en = (cons₂ c).en) :
    ((CoolingSource pmb time₁ dt prim₁ ps₁ bcc₁ cons₁ cs₁).1 c).en
      = ((CoolingSource pmb time₂ dt prim₂ ps₂ bcc₂ cons₂ cs₂).1 c).en := by
  rw [coolingSource_apply, coolingSource_apply]
  split_ifs with hin
  · unfold coolCell cellTemp
    dsimp only
    rw [apply_ite ConsCell.en, apply_ite ConsCell.en]
    dsimp only
    rw [hrho, hpress, hen]
  · exact hen

/-- Witness for C10: same ρ, p, dt and old energy at the visited cell, but
different times, velocities, magnetic fields, scalars and other conserved
components give the same post-update energy. -/
theorem coolingSource_local_deterministic_witness :
    ((CoolingSource pmb0 0.0 1.0 primHot zeroScalar zeroB cons0 zeroScalar).1
        (0, 0, 0)).en
      = ((CoolingSource pmb0 42.0 1.0 primHot2 oneScalar oneB cons1 oneScalar).1
          (0, 0, 0)).en :=
  coolingSource_local_deterministic pmb0 0.0 42.0 1.0 primHot primHot2
    zeroScalar oneScalar zeroB oneB cons0 cons1 zeroScalar oneScalar (0, 0, 0)
    rfl rfl rfl

/-- One cell of `MeshBlock::ProblemGenerator`: density `rho`, zero momenta
and, when the equation of state is non-barotropic, the conserved energy
`rho*kB*T/gm1/mu/amu`. -/
noncomputable def pgenCell (rho T gamma : ℝ) (nonBarotropic : Bool)
    (u : ConsCell) : ConsCell :=
  let gm1 := gamma - 1.0
  let u1 : ConsCell := { u with dens := rho, m1 := 0.0, m2 := 0.0, m3 := 0.0 }
  if nonBarotropic then { u1 with en := rho * kB * T / gm1 / mu / amu } else u1

/-- `MeshBlock::ProblemGenerator` from `cool_turb.cpp`: the triple loop over
the block's owned cells writing the uniform initial conserved state. The
flag `nonBarotropic` stands for the build-time `NON_BAROTROPIC_EOS`. -/
noncomputable def ProblemGenerator (pmb : MeshBlockIdx) (rho T gamma : ℝ)
    (nonBarotropic : Bool) (u0 : Cell → ConsCell) : Cell → ConsCell :=
  (blockCells pmb).foldl
    (fun u c => Function.update u c (pgenCell rho T gamma nonBarotropic (u c))) u0

theorem problemGenerator_apply (pmb : MeshBlockIdx) (rho T gamma : ℝ)
    (nonBarotropic : Bool) (u0 : Cell → ConsCell) (c : Cell) :
    ProblemGenerator pmb rho T gamma nonBarotropic u0 c
      = if inRange pmb c then pgenCell rho T gamma nonBarotropic (u0 c)
        else u0 c := by
  unfold ProblemGenerator
  rw [foldl_update_eq (fun _ u => pgenCell rho T gamma nonBarotropic u) _
    (blockCells_nodup pmb)]
  by_cases h : inRange pmb c
  · rw [if_pos (mem_blockCells.mpr h), if_pos h]
  · rw [if_neg (fun hm => h (mem_blockCells.mp hm)), if_neg h]

/-- C7: on every owned cell the problem generator writes density `rho`,
exactly zero momenta and, exactly when the EOS carries an energy equation,
the energy `rho·k_B·T/(gamma−1)/μ/amu` with μ = 0.62, k_B = 1.3807e−16,
amu = 1.660539e−24; with an energy equation the whole written cell value is
the same for every cell, so the state is uniform and deterministic. -/
theorem problemGenerator_uniform_state (pmb : MeshBlockIdx) (rho T gamma : ℝ)
    (nonBarotropic : Bool) (u0 : Cell → ConsCell) (c : Cell)
    (hc : inRange pmb c) :
    (ProblemGenerator pmb rho T gamma nonBarotropic u0 c).dens = rho ∧
      (ProblemGenerator pmb rho T gamma nonBarotropic u0 c).m1 = 0.0 ∧
      (ProblemGenerator pmb rho T gamma nonBarotropic u0 c).m2 = 0.0 ∧
      (ProblemGenerator pmb rho T gamma nonBarotropic u0 c).m3 = 0.0 ∧
      (nonBarotropic = true →
        ProblemGenerator pmb rho T gamma nonBarotropic u0 c
          = ⟨rho, 0.0, 0.0, 0.0,
              rho * 1.3807e-16 * T / (gamma - 1.0) / 0.62 / 1.660539e-24⟩) ∧
      (nonBarotropic = false →
        (ProblemGenerator pmb rho T gamma nonBarotropic u0 c).en = (u0 c).en) := by
  rw [problemGenerator_apply, if_pos hc]
  unfold pgenCell
  dsimp only
  cases nonBarotropic
  · rw [if_neg (by simp)]
    exact ⟨rfl, rfl, rfl, rfl, by simp, fun _ => rfl⟩
  · rw [if_pos rfl]
    refine ⟨rfl, rfl, rfl, rfl, fun _ => ?_, by simp⟩
    unfold kB mu amu
    rfl

/-- Witness for C7 at a one-cell block with rho = 1, T = 10⁶, gamma = 5/3. -/
theorem problemGenerator_uniform_state_witness :
    (ProblemGenerator pmb0 1.0 1.0e6 (5.0 / 3.0) true cons0 (0, 0, 0)).dens = 1.0 ∧
      (ProblemGenerator pmb0 1.0 1.0e6 (5.0 / 3.0) true cons0 (0, 0, 0)).m1 = 0.0 ∧
      (ProblemGenerator pmb0 1.0 1.0e6 (5.0 / 3.0) true cons0 (0, 0, 0)).m2 = 0.0 ∧
      (ProblemGenerator pmb0 1.0 1.0e6 (5.0 / 3.0) true cons0 (0, 0, 0)).m3 = 0.0 ∧
      ProblemGenerator pmb0 1.0 1.0e6 (5.0 / 3.0) true cons0 (0, 0, 0)
        = ⟨1.0, 0.0, 0.0, 0.0,
            1.0 * 1.3807e-16 * 1.0e6 / ((5.0 / 3.0) - 1.0) / 0.62 / 1.660539e-24⟩ := by
  have h := problemGenerator_uniform_state pmb0 1.0 1.0e6 (5.0 / 3.0) true cons0
    (0, 0, 0) (by simp [inRange, pmb0])
  exact ⟨h.1, h.2.1, h.2.2.1, h.2.2.2.1, h.2.2.2.2.1 rfl⟩

/-- Host build flags read by `Mesh::InitUserMeshData`. -/
structure HostConfig where
  selfGravityEnabled : Bool
  fftEnabled : Bool

/-- Configuration scalars of the `problem` input block; `grav_eps` is
optional with default 0.0 (`GetOrAddReal`). -/
structure ProblemInput where
  four_pi_G : ℝ
  grav_eps : Option ℝ
  turb_flag : ℤ

/-- Observable outcome of `Mesh::InitUserMeshData` on the host mesh. -/
structure MeshData where
  fourPiG : Option ℝ
  gravityThreshold : Option ℝ
  turb_flag : ℤ
  coolingEnrolled : Bool

/-- Modelled from the spec: the host primitives called by
`Mesh::InitUserMeshData` (`ParameterInput` reads, `SetFourPiG`,
`SetGravityThreshold`, `EnrollUserExplicitSourceFunction`, the
`SELF_GRAVITY_ENABLED` and `FFT` build flags and the fatal `ATHENA_ERROR`
path) live outside `src/`; they are modelled as explicit `MeshData` state
with the fatal error as the `Except.error` case. The branch structure
mirrors the body in `cool_turb.cpp`. -/
noncomputable def InitUserMeshData (host : HostConfig) (pin : ProblemInput) :
    Except String MeshData :=
  let gravity : Option ℝ × Option ℝ :=
    if host.selfGravityEnabled then
      (some pin.four_pi_G, some (pin.grav_eps.getD 0.0))
    else (none, none)
  let tf := pin.turb_flag
  if tf ≠ 0 ∧ host.fftEnabled = false then
    Except.error "non zero Turbulence flag is set without FFT!"
  else
    Except.ok
      { fourPiG := gravity.1, gravityThreshold := gravity.2, turb_flag := tf,
        coolingEnrolled := true }

/-- C8: with turb_flag = 0 setup succeeds whether or not FFT capability is
present; with turb_flag ≠ 0 and no FFT capability it fails fatally with a
diagnostic; with FFT capability it succeeds; on every success the cooling
source is enrolled and the gravity parameters are forwarded exactly when
self-gravity is enabled. -/
theorem initUserMeshData_spec (host : HostConfig) (pin : ProblemInput) :
    (pin.turb_flag = 0 →
      InitUserMeshData host pin = Except.ok
        { fourPiG :=
            if host.selfGravityEnabled then some pin.four_pi_G else none,
          gravityThreshold :=
            if host.selfGravityEnabled then some (pin.grav_eps.getD 0.0)
            else none,
          turb_flag := 0, coolingEnrolled := true }) ∧
      (pin.turb_flag ≠ 0 → host.fftEnabled = false →
        InitUserMeshData host pin
          = Except.error "non zero Turbulence flag is set without FFT!") ∧
      (host.fftEnabled = true →
        InitUserMeshData host pin = Except.ok
          { fourPiG :=
              if host.selfGravityEnabled then some pin.four_pi_G else none,
            gravityThreshold :=
              if host.selfGravityEnabled then some (pin.grav_eps.getD 0.0)
              else none,
            turb_flag := pin.turb_flag, coolingEnrolled := true }) := by
  refine ⟨fun h0 => ?_, fun hnz hfft => ?_, fun hfft => ?_⟩
  · unfold InitUserMeshData
    dsimp only
    rw [if_neg (by simp [h0])]
    by_cases hg : host.selfGravityEnabled <;> simp [hg, h0]
  · unfold InitUserMeshData
    dsimp only
    rw [if_pos ⟨hnz, hfft⟩]
  · unfold InitUserMeshData
    dsimp only
    rw [if_neg (by simp [hfft])]
    by_cases hg : host.selfGravityEnabled <;> simp [hg]

/-- Witness for C8: the three branches at concrete configurations. -/
theorem initUserMeshData_spec_witness :
    InitUserMeshData ⟨true, false⟩ ⟨2.5, none, 0⟩
        = Except.ok ⟨some 2.5, some 0.0, 0, true⟩ ∧
      InitUserMeshData ⟨false, false⟩ ⟨2.5, none, 2⟩
        = Except.error "non zero Turbulence flag is set without FFT!" ∧
      InitUserMeshData ⟨false, true⟩ ⟨2.5, some 1.0, 3⟩
        = Except.ok ⟨none, none, 3, true⟩ := by
  refine ⟨?_, ?_, ?_⟩
  · simpa using (initUserMeshData_spec ⟨true, false⟩ ⟨2.5, none, 0⟩).1 rfl
  · exact (initUserMeshData_spec ⟨false, false⟩ ⟨2.5, none, 2⟩).2.1
      (by decide) rfl
  · simpa using (initUserMeshData_spec ⟨false, true⟩ ⟨2.5, some 1.0, 3⟩).2.2 rfl

end CoolTurb
